import Mathlib

/-!
Shallow embedding of the SSZ decoder (`decoder.go`) and proofs about its
offset handling, tail-length derivation, cap enforcement, error latch and
frame effects.

Modelling conventions:
* Machine `uint32` values are `Nat` with explicit wrap-around where the Go
  code can wrap (`sub32` below); all values produced by the decoder itself
  are below `2^32`.
* The input stream `io.Reader` is a `List Nat` of bytes (each byte taken
  mod 256 when interpreted numerically).
* Go's distinction between a `nil` slice and an empty non-nil slice matters
  for `dec.offsets` (checked with `== nil` in `decodeOffset`), so the
  offsets queue is an `Option (List Nat)` with `none` playing `nil`.
* Go slices of bytes are `List Nat`; capacity is modelled as equal to
  length, so growing a buffer allocates a zeroed one exactly like Go's
  `make` (the only observable difference would be stale bytes surviving a
  short read into a re-sliced buffer, which no claim touches).
* The queues of pending closures (`dec.pend`) are defunctionalised into
  `PendAction` values recording the target slot and the caps captured by
  the closure.
* A Go runtime panic (index out of range) is modelled by latching the
  `panicked` flag; once it is set the real program has crashed, so the
  model's subsequent state is only meaningful through that flag.
* The Go stacks (`offsetss`, `pends`, `lengths`) append at the end and pop
  from the end; here the top of each stack is the head of the list.
-/

namespace SszDec

/-- Error kinds of the decoder, one per `Err*` value used in `decoder.go`. -/
inductive DecErr where
  | shortRead
  | offsetBeyondCapacity
  | firstOffsetMismatch
  | badOffsetProgression
  | badCounterOffset
  | shortCounterOffset
  | dynamicStaticsIndivisible
  | maxItemsExceeded
  | maxLengthExceeded
  | dynamicObjectInStaticSlot
  deriving Repr, DecidableEq

/-- Defunctionalised pending tail actions (`dec.pend` holds Go closures).
`slot` is the index of the target field in the heap the drain runs over. -/
inductive PendAction where
  | dynBytes (slot maxSize : Nat)
  | sliceStaticBytes (slot elemSize maxItems : Nat)
  | sliceDynBytes (slot maxItems maxSize : Nat)
  | sliceStaticObjects (slot szr maxItems : Nat)
  deriving Repr, DecidableEq

/-- The decoder state (`struct Decoder` of `decoder.go`). -/
structure Dec where
  input : List Nat
  err : Option DecErr := none
  panicked : Bool := false
  dyn : Bool := false
  buf : List Nat := List.replicate 32 0
  length : Nat := 0
  lengths : List Nat := []
  offset : Nat := 0
  offsets : Option (List Nat) := none
  offsetss : List (Option (List Nat)) := []
  pend : List PendAction := []
  pends : List (List PendAction) := []
  deriving Repr, DecidableEq

/-- Little-endian value of a byte list (each entry taken mod 256). -/
def leBytes (bs : List Nat) : Nat :=
  bs.foldr (fun b acc => b % 256 + 256 * acc) 0

/-- Wrap-around `uint32` subtraction: matches Go `a - b` on `uint32`
whenever `a b < 2^32`. -/
def sub32 (a b : Nat) : Nat :=
  (a + 4294967296 - b) % 4294967296

/-- `io.ReadFull(dec.in, dec.buf[:n])`: move `n` bytes from the input into
the front of the scratch buffer; on a short read everything available is
consumed and the flag is `false`. -/
def readInto (dec : Dec) (n : Nat) : Dec × Bool :=
  if n ≤ dec.input.length then
    ({ dec with input := dec.input.drop n,
                buf := dec.input.take n ++ dec.buf.drop n }, true)
  else
    ({ dec with input := [],
                buf := dec.input ++ dec.buf.drop dec.input.length }, false)

/-- `Decoder.decodeOffset`: read a little-endian `uint32` and validate it
against the container length, the expected first offset and the previous
offset; on success record it. Returns the error alongside the state
reached (the 4 bytes are consumed even when validation fails). -/
def decodeOffset (dec : Dec) (list : Bool) : Option DecErr × Dec :=
  match readInto dec 4 with
  | (dec1, false) => (some .shortRead, dec1)
  | (dec1, true) =>
    let offset := leBytes (dec1.buf.take 4)
    if dec1.length < offset then
      (some .offsetBeyondCapacity, dec1)
    else if dec1.offsets = none ∧ list = false ∧ dec1.offset ≠ offset then
      (some .firstOffsetMismatch, dec1)
    else if dec1.offsets ≠ none ∧ offset < dec1.offset then
      (some .badOffsetProgression, dec1)
    else
      (none, { dec1 with offset := offset,
                         offsets := some (dec1.offsets.getD [] ++ [offset]) })

/-- `Decoder.retrieveSize`: derive the next tail region's length from the
offsets queue (difference of the first two offsets, or container length
minus the only offset) and pop the front offset. Go indexes the queue
unconditionally, so an empty or `nil` queue is a runtime panic. -/
def retrieveSize (dec : Dec) : Nat × Dec :=
  match dec.offsets with
  | some (o0 :: o1 :: rest) =>
      (sub32 o1 o0, { dec with offsets := some (o1 :: rest) })
  | some [o0] =>
      (sub32 dec.length o0, { dec with offsets := some [] })
  | _ => (0, { dec with panicked := true })

/-- `Decoder.OffsetDynamics`: push the offsets queue and pending queue,
reset them, and set the expected first offset. -/
def OffsetDynamics (dec : Dec) (offset : Nat) : Dec :=
  { dec with dyn := true,
             offsetss := dec.offsets :: dec.offsetss,
             offsets := none,
             offset := offset % 4294967296,
             pends := dec.pend :: dec.pends,
             pend := [] }

/-- `DecodeStaticBytes`: fill the caller's byte buffer from the input
(`io.ReadFull(dec.in, bytes)`). On a short read the available bytes land
at the front of the buffer and the error latch is set. -/
def DecodeStaticBytes (dec : Dec) (bytes : List Nat) : Dec × List Nat :=
  if dec.err.isSome then (dec, bytes)
  else if bytes.length ≤ dec.input.length then
    ({ dec with input := dec.input.drop bytes.length }, dec.input.take bytes.length)
  else
    ({ dec with err := some .shortRead, input := [] },
      dec.input ++ bytes.drop dec.input.length)

/-- `decodeDynamicBytes` (the queued tail action): derive the region length
from the offsets, enforce the byte cap, grow or truncate the caller's
buffer to exactly that length and fill it from the input. -/
def decodeDynamicBytes (dec : Dec) (blob : List Nat) (maxSize : Nat) :
    Dec × List Nat :=
  if dec.err.isSome then (dec, blob)
  else
    let sd := retrieveSize dec
    if maxSize < sd.1 then ({ sd.2 with err := some .maxLengthExceeded }, blob)
    else
      let blob1 := if blob.length < sd.1 then List.replicate sd.1 0
                   else blob.take sd.1
      DecodeStaticBytes sd.2 blob1

/-- Run one defunctionalised pending action over the heap of byte blobs it
targets. Only `dynBytes` actions are ever drained inside the code modelled
here (the inner drain of `decodeSliceOfDynamicBytes`); evaluating the Go
closure's `&(*blobs)[slot]` argument on an out-of-range slot is the
runtime panic of `decoder.go` line 264 when the slice was sized to zero.
After a panic nothing further runs. -/
def runPend (st : Dec × List (List Nat)) (a : PendAction) :
    Dec × List (List Nat) :=
  if st.1.panicked then st
  else
    match a with
    | .dynBytes slot maxSize =>
        if h : slot < st.2.length then
          let db := decodeDynamicBytes st.1 (st.2.get ⟨slot, h⟩) maxSize
          (db.1, st.2.set slot db.2)
        else ({ st.1 with panicked := true }, st.2)
    | _ => st

/-- `Decoder.dynamicDone`: drain the pending queue in FIFO order over the
blob heap, then restore the outer pending queue and offsets queue. -/
def dynamicDone (dec : Dec) (blobs : List (List Nat)) :
    Dec × List (List Nat) :=
  let st := dec.pend.foldl runPend (dec, blobs)
  ({ st.1 with pend := st.1.pends.headD [],
               pends := st.1.pends.tail,
               offsets := st.1.offsetss.headD none,
               offsetss := st.1.offsetss.tail }, st.2)

/-- `Decoder.descendIntoDynamic`: push the container length, install the
inner region's length and reset the coordination state. -/
def descendIntoDynamic (dec : Dec) (length : Nat) : Dec :=
  OffsetDynamics { dec with lengths := dec.length :: dec.lengths,
                            length := length } 0

/-- `Decoder.ascendFromDynamic`: drain the inner pending queue and pop the
container length back. -/
def ascendFromDynamic (dec : Dec) (blobs : List (List Nat)) :
    Dec × List (List Nat) :=
  let st := dynamicDone dec blobs
  ({ st.1 with length := st.1.lengths.headD 0,
               lengths := st.1.lengths.tail }, st.2)

/-- `DecodeUint64`: read 8 bytes through the scratch buffer and store the
little-endian value; the value is stored even on a short read (Go assigns
`*n` unconditionally after `io.ReadFull`). -/
def DecodeUint64 (dec : Dec) (n : Nat) : Dec × Nat :=
  if dec.err.isSome then (dec, n)
  else
    let rd := readInto dec 8
    let dec1 := if rd.2 then rd.1 else { rd.1 with err := some .shortRead }
    (dec1, leBytes (dec1.buf.take 8))

/-- `DecodeDynamicBytes` (head phase): read and validate an offset, then
queue the tail action targeting `slot`. -/
def DecodeDynamicBytes (dec : Dec) (slot maxSize : Nat) : Dec :=
  if dec.err.isSome then dec
  else
    match decodeOffset dec false with
    | (some e, dec1) => { dec1 with err := some e }
    | (none, dec1) => { dec1 with pend := dec1.pend ++ [.dynBytes slot maxSize] }

/-- `DecodeSliceOfStaticBytes` (head phase). -/
def DecodeSliceOfStaticBytes (dec : Dec) (slot elemSize maxItems : Nat) : Dec :=
  if dec.err.isSome then dec
  else
    match decodeOffset dec false with
    | (some e, dec1) => { dec1 with err := some e }
    | (none, dec1) =>
        { dec1 with pend := dec1.pend ++ [.sliceStaticBytes slot elemSize maxItems] }

/-- `DecodeSliceOfDynamicBytes` (head phase). -/
def DecodeSliceOfDynamicBytes (dec : Dec) (slot maxItems maxSize : Nat) : Dec :=
  if dec.err.isSome then dec
  else
    match decodeOffset dec false with
    | (some e, dec1) => { dec1 with err := some e }
    | (none, dec1) =>
        { dec1 with pend := dec1.pend ++ [.sliceDynBytes slot maxItems maxSize] }

/-- `DecodeSliceOfStaticObjects` (head phase): also rejects a dynamic
object declared in a static slot (`staticSSZ` is `(T)(nil).StaticSSZ()`). -/
def DecodeSliceOfStaticObjects (dec : Dec) (slot : Nat) (staticSSZ : Bool)
    (szr maxItems : Nat) : Dec :=
  if dec.err.isSome then dec
  else if !staticSSZ then { dec with err := some .dynamicObjectInStaticSlot }
  else
    match decodeOffset dec false with
    | (some e, dec1) => { dec1 with err := some e }
    | (none, dec1) =>
        { dec1 with pend := dec1.pend ++ [.sliceStaticObjects slot szr maxItems] }

/-- `decodeSliceOfStaticBytes` (tail action): derive the region length and,
unless the region is empty, check divisibility by the element size `N`,
enforce the item cap, size the caller's slice and fill each element. -/
def decodeSliceOfStaticBytes (N : Nat) (dec : Dec) (bytes : List (List Nat))
    (maxItems : Nat) : Dec × List (List Nat) :=
  if dec.err.isSome then (dec, bytes)
  else
    let sd := retrieveSize dec
    if sd.1 = 0 then (sd.2, bytes)
    else if sd.1 % N ≠ 0 then
      ({ sd.2 with err := some .dynamicStaticsIndivisible }, bytes)
    else
      let itemCount := sd.1 / N
      if maxItems < itemCount then
        ({ sd.2 with err := some .maxItemsExceeded }, bytes)
      else
        let bytes1 := if bytes.length < itemCount
          then List.replicate itemCount (List.replicate N 0)
          else bytes.take itemCount
        (List.range itemCount).foldl
          (fun st i =>
            let db := DecodeStaticBytes st.1 (st.2.getD i [])
            (db.1, st.2.set i db.2))
          (sd.2, bytes1)

/-- `decodeSliceOfStaticObjects` (tail action): like the static-bytes case
but with an abstract element type; `szr` is `sizer.SizeSSZ()`, `newU` the
zero object materialised for `nil` entries and `decSSZ` the element's
`DecodeSSZ`. Slice entries are `Option α` with `none` for a `nil`
pointer. -/
def decodeSliceOfStaticObjects (α : Type) (szr : Nat) (newU : α)
    (decSSZ : Dec → α → Dec × α) (dec : Dec) (objects : List (Option α))
    (maxItems : Nat) : Dec × List (Option α) :=
  if dec.err.isSome then (dec, objects)
  else
    let sd := retrieveSize dec
    if sd.1 = 0 then (sd.2, objects)
    else if sd.1 % szr ≠ 0 then
      ({ sd.2 with err := some .dynamicStaticsIndivisible }, objects)
    else
      let itemCount := sd.1 / szr
      if maxItems < itemCount then
        ({ sd.2 with err := some .maxItemsExceeded }, objects)
      else
        let objects1 := if objects.length < itemCount
          then List.replicate itemCount none
          else objects.take itemCount
        (List.range itemCount).foldl
          (fun st i =>
            let o := (st.2.getD i none).getD newU
            let db := decSSZ st.1 o
            (db.1, st.2.set i (some db.2)))
          (sd.2, objects1)

/-- `decodeSliceOfDynamicBytes` (tail action): derive the region length,
treat an empty region as the empty slice, require at least 4 bytes for the
counter, descend into the region, read the counter offset (count = O/4,
divisibility by 4 required, item cap enforced), size the slice, queue the
first blob's action manually, read the remaining offsets, and drain
everything on the way out (`defer dec.ascendFromDynamic()`). -/
def decodeSliceOfDynamicBytes (dec : Dec) (blobs : List (List Nat))
    (maxItems maxSize : Nat) : Dec × List (List Nat) :=
  if dec.err.isSome then (dec, blobs)
  else
    let sd := retrieveSize dec
    if sd.1 = 0 then (sd.2, blobs)
    else if sd.1 < 4 then ({ sd.2 with err := some .shortCounterOffset }, blobs)
    else
      let dec2 := descendIntoDynamic sd.2 sd.1
      match decodeOffset dec2 true with
      | (some e, dec3) => ascendFromDynamic { dec3 with err := some e } blobs
      | (none, dec3) =>
        if dec3.offset % 4 ≠ 0 then
          ascendFromDynamic { dec3 with err := some .badCounterOffset } blobs
        else
          let items := dec3.offset / 4
          if maxItems < items then
            ascendFromDynamic { dec3 with err := some .maxItemsExceeded } blobs
          else
            let blobs1 := if blobs.length < items then List.replicate items []
                          else blobs.take items
            let dec4 := { dec3 with pend := dec3.pend ++ [.dynBytes 0 maxSize] }
            let dec5 := (List.range' 1 (items - 1)).foldl
              (fun d i => DecodeDynamicBytes d i maxSize) dec4
            ascendFromDynamic dec5 blobs1

/-! ### Helper lemmas -/

/-- The decoder state after a successful 4-byte read into the scratch
buffer. -/
def afterRead4 (dec : Dec) : Dec :=
  { dec with input := dec.input.drop 4, buf := dec.input.take 4 ++ dec.buf.drop 4 }

theorem readInto_of_le (dec : Dec) (n : Nat) (h : n ≤ dec.input.length) :
    readInto dec n =
      ({ dec with input := dec.input.drop n,
                  buf := dec.input.take n ++ dec.buf.drop n }, true) := by
  simp [readInto, h]

theorem take_append_take (l1 l2 : List Nat) (n : Nat) (h : n ≤ l1.length) :
    (l1.take n ++ l2).take n = l1.take n := by
  rw [List.take_append_of_le_length (by simp [List.length_take, h]),
    List.take_take]
  simp

/-- Normal form of `decodeOffset` when the input holds the 4 offset
bytes. -/
theorem decodeOffset_of_le (dec : Dec) (list : Bool) (h : 4 ≤ dec.input.length) :
    decodeOffset dec list =
      (if dec.length < leBytes (dec.input.take 4) then
        (some .offsetBeyondCapacity, afterRead4 dec)
      else if dec.offsets = none ∧ list = false ∧
          dec.offset ≠ leBytes (dec.input.take 4) then
        (some .firstOffsetMismatch, afterRead4 dec)
      else if dec.offsets ≠ none ∧ leBytes (dec.input.take 4) < dec.offset then
        (some .badOffsetProgression, afterRead4 dec)
      else
        (none, { afterRead4 dec with
                   offset := leBytes (dec.input.take 4),
                   offsets := some (dec.offsets.getD [] ++
                     [leBytes (dec.input.take 4)]) })) := by
  unfold decodeOffset
  rw [readInto_of_le dec 4 h]
  simp only [afterRead4, take_append_take dec.input (dec.buf.drop 4) 4 h]

/-! ### C1: tail-region length derivation and offset pop -/

/-- C1: with a non-empty offsets queue, `retrieveSize` returns
`offsets[1] - offsets[0]` when at least two offsets remain and
`container_length - offsets[0]` when exactly one does (both in the wrapping
`uint32` arithmetic of the code), and pops the front offset. -/
theorem retrieveSize_spec (dec : Dec) (o0 : Nat) (rest : List Nat)
    (h : dec.offsets = some (o0 :: rest)) :
    (retrieveSize dec).1 = (match rest with
      | [] => sub32 dec.length o0
      | o1 :: _ => sub32 o1 o0) ∧
    (retrieveSize dec).2.offsets = some rest := by
  cases rest <;> simp [retrieveSize, h]

/-- C1 witness: a queue of two offsets. -/
theorem retrieveSize_spec_w :
    ({ input := [], length := 20, offsets := some [7, 12] } : Dec).offsets =
        some (7 :: [12]) ∧
    ((retrieveSize { input := [], length := 20, offsets := some [7, 12] }).1 =
        sub32 12 7 ∧
      (retrieveSize { input := [], length := 20, offsets := some [7, 12] }).2.offsets =
        some [12]) :=
  ⟨by decide,
    retrieveSize_spec { input := [], length := 20, offsets := some [7, 12] } 7 [12]
      (by decide)⟩

/-! ### C4: offsets may not exceed the container length -/

/-- C4: a decoded offset exceeding the container length fails with the
beyond-capacity error, and any successfully decoded offset is at most the
container length. -/
theorem decodeOffset_capacity (dec : Dec) (list : Bool)
    (h : 4 ≤ dec.input.length) :
    (dec.length < leBytes (dec.input.take 4) →
      (decodeOffset dec list).1 = some .offsetBeyondCapacity) ∧
    ((decodeOffset dec list).1 = none →
      (decodeOffset dec list).2.offset = leBytes (dec.input.take 4) ∧
      (decodeOffset dec list).2.offset ≤ dec.length) := by
  rw [decodeOffset_of_le dec list h]
  split_ifs with h1 h2 h3 <;> simp <;> omega

/-- C4 witness: decoded offset 5 against container length 3, and decoded
offset 2 accepted. -/
theorem decodeOffset_capacity_w :
    (4 ≤ ({ input := [5, 0, 0, 0], length := 3 } : Dec).input.length ∧
      (({ input := [5, 0, 0, 0], length := 3 } : Dec).length <
          leBytes (({ input := [5, 0, 0, 0], length := 3 } : Dec).input.take 4) →
        (decodeOffset { input := [5, 0, 0, 0], length := 3 } false).1 =
          some .offsetBeyondCapacity) ∧
      ((decodeOffset { input := [5, 0, 0, 0], length := 3 } false).1 = none →
        (decodeOffset { input := [5, 0, 0, 0], length := 3 } false).2.offset =
          leBytes (({ input := [5, 0, 0, 0], length := 3 } : Dec).input.take 4) ∧
        (decodeOffset { input := [5, 0, 0, 0], length := 3 } false).2.offset ≤
          ({ input := [5, 0, 0, 0], length := 3 } : Dec).length)) :=
  ⟨by decide, decodeOffset_capacity { input := [5, 0, 0, 0], length := 3 } false
    (by decide)⟩

/-! ### C2: offset progression on non-first offsets -/

/-- C2: with a non-`nil` offsets queue (the offset being read is not the
container's first) and the previously accepted offset within the container
length, the read fails with the bad-progression error exactly when the new
offset is strictly below the previous one, and an offset equal to the
previous one is accepted. -/
theorem decodeOffset_progression (dec : Dec) (list : Bool) (l : List Nat)
    (hofs : dec.offsets = some l) (hprev : dec.offset ≤ dec.length)
    (h : 4 ≤ dec.input.length) :
    ((decodeOffset dec list).1 = some .badOffsetProgression ↔
      leBytes (dec.input.take 4) < dec.offset) ∧
    (leBytes (dec.input.take 4) = dec.offset →
      (decodeOffset dec list).1 = none) := by
  rw [decodeOffset_of_le dec list h]
  have hne : dec.offsets ≠ none := by simp [hofs]
  split_ifs with h1 h2 h3 <;> simp_all
  all_goals omega

/-- Witness state for C2: previous accepted offset 6, incoming offset
bytes decoding to 5. -/
def decC2a : Dec :=
  { input := [5, 0, 0, 0], length := 10, offset := 6, offsets := some [6] }

/-- Witness state for C2: previous accepted offset 6, incoming offset
bytes decoding to 6. -/
def decC2b : Dec :=
  { input := [6, 0, 0, 0], length := 10, offset := 6, offsets := some [6] }

/-- C2 witness: offset 5 after offset 6 is rejected with the
bad-progression error; offset 6 after offset 6 is accepted. -/
theorem decodeOffset_progression_w :
    (decC2a.offsets = some [6] ∧ decC2a.offset ≤ decC2a.length ∧
      4 ≤ decC2a.input.length ∧
      (decodeOffset decC2a false).1 = some .badOffsetProgression) ∧
    (decodeOffset decC2b false).1 = none :=
  ⟨⟨by decide, by decide, by decide,
    (decodeOffset_progression decC2a false [6] (by decide) (by decide)
        (by decide)).1.mpr (by decide)⟩,
    (decodeOffset_progression decC2b false [6] (by decide) (by decide)
        (by decide)).2 (by decide)⟩

/-! ### C3: first-offset validation (corrected) -/

/-- A decoder about to read the first offset of a container whose expected
head size is 4 but whose recorded container length is 0; the incoming
offset bytes decode to 10. -/
def decC3 : Dec := { input := [10, 0, 0, 0], length := 0, offset := 4 }

/-- C3 counterexample: the first offset differs from the expected head
size, yet the failure is the beyond-capacity error, not the first-offset
mismatch — the capacity check runs first. -/
theorem decodeOffset_first_cex :
    decC3.offsets = none ∧
    leBytes (decC3.input.take 4) ≠ decC3.offset ∧
    (decodeOffset decC3 false).1 = some .offsetBeyondCapacity ∧
    (decodeOffset decC3 false).1 ≠ some .firstOffsetMismatch := by decide

/-- C3 amended: for a first offset read by a non-list declaration, the
first-offset-mismatch error occurs exactly when the offset is within the
container's length but differs from the expected head size. -/
theorem decodeOffset_first_amended (dec : Dec) (hofs : dec.offsets = none)
    (h : 4 ≤ dec.input.length) :
    (decodeOffset dec false).1 = some .firstOffsetMismatch ↔
      leBytes (dec.input.take 4) ≤ dec.length ∧
      leBytes (dec.input.take 4) ≠ dec.offset := by
  rw [decodeOffset_of_le dec false h]
  split_ifs with h1 h2 h3 <;> simp_all
  all_goals omega

/-- Witness state for amended C3: first offset bytes decoding to 10, head
size 4, container length 20. -/
def decC3b : Dec := { input := [10, 0, 0, 0], length := 20, offset := 4 }

/-- C3 amended witness: offset 10 within length 20 but different from the
expected head size 4. -/
theorem decodeOffset_first_amended_w :
    decC3b.offsets = none ∧ 4 ≤ decC3b.input.length ∧
    ((decodeOffset decC3b false).1 = some .firstOffsetMismatch ↔
      leBytes (decC3b.input.take 4) ≤ decC3b.length ∧
      leBytes (decC3b.input.take 4) ≠ decC3b.offset) :=
  ⟨by decide, by decide,
    decodeOffset_first_amended decC3b (by decide) (by decide)⟩

/-! ### C10: the uint32 subtractions never wrap -/

theorem sub32_of_le (a b : Nat) (hba : b ≤ a) (ha : a < 4294967296) :
    sub32 a b = a - b := by
  unfold sub32
  omega

/-- C10: under the validations `decodeOffset` performs (every recorded
offset is at most the container length and the queue is non-decreasing),
the wrapping subtractions in `retrieveSize` agree with exact subtraction,
and the derived region length never carries past the container length. -/
theorem retrieveSize_no_wrap (dec : Dec) (o0 : Nat) (rest : List Nat)
    (hofs : dec.offsets = some (o0 :: rest))
    (hchain : List.Chain' (· ≤ ·) (o0 :: rest))
    (hbound : ∀ o ∈ o0 :: rest, o ≤ dec.length)
    (hlen : dec.length < 4294967296) :
    o0 + (retrieveSize dec).1 ≤ dec.length ∧
    (retrieveSize dec).1 = (match rest with
      | [] => dec.length - o0
      | o1 :: _ => o1 - o0) := by
  cases rest with
  | nil =>
    have h0 : o0 ≤ dec.length := hbound o0 (by simp)
    simp [retrieveSize, hofs, sub32_of_le dec.length o0 h0 hlen]
    omega
  | cons o1 t =>
    have h01 : o0 ≤ o1 := (List.chain'_cons.mp hchain).1
    have h1 : o1 ≤ dec.length := hbound o1 (by simp)
    have h1lt : o1 < 4294967296 := lt_of_le_of_lt h1 hlen
    simp [retrieveSize, hofs, sub32_of_le o1 o0 h01 h1lt]
    omega

/-- Witness state for C10: validated offsets 4 and 9 in a container of
length 12. -/
def decC10 : Dec := { input := [], length := 12, offsets := some [4, 9] }

/-- C10 witness. -/
theorem retrieveSize_no_wrap_w :
    decC10.offsets = some (4 :: [9]) ∧
    List.Chain' (· ≤ ·) (4 :: [9]) ∧
    decC10.length < 4294967296 ∧
    (4 + (retrieveSize decC10).1 ≤ decC10.length ∧
      (retrieveSize decC10).1 = 9 - 4) :=
  ⟨by decide,
    List.Chain.cons (by omega) List.Chain.nil,
    by decide,
    retrieveSize_no_wrap decC10 4 [9] (by decide)
      (List.Chain.cons (by omega) List.Chain.nil)
      (by intro o ho; fin_cases ho <;> decide) (by decide)⟩

/-! ### C6: short counter offset (corrected) -/

/-- Decoder state whose single remaining offset 4 equals the container
length, so the derived tail region for the slice field is empty. -/
def decC6 : Dec := { input := [], length := 4, offsets := some [4] }

/-- C6 counterexample: a zero-length tail region is shorter than the 4
bytes a counter would need, yet decoding succeeds (empty slice) and the
caller's slice is untouched, with no short-counter-offset error. -/
theorem shortCounter_cex :
    decC6.err = none ∧
    (retrieveSize decC6).1 = 0 ∧
    (decodeSliceOfDynamicBytes decC6 [[7]] 8 8).1.err = none ∧
    (decodeSliceOfDynamicBytes decC6 [[7]] 8 8).2 = [[7]] := by decide

/-- C6 amended: a slice-of-variable tail region of nonzero length below 4
bytes fails with the short-counter-offset error (a zero-length region is
instead accepted as the empty slice). -/
theorem shortCounter_amended (dec : Dec) (blobs : List (List Nat))
    (maxItems maxSize : Nat) (herr : dec.err = none)
    (h0 : 0 < (retrieveSize dec).1) (h4 : (retrieveSize dec).1 < 4) :
    (decodeSliceOfDynamicBytes dec blobs maxItems maxSize).1.err =
      some .shortCounterOffset ∧
    (decodeSliceOfDynamicBytes dec blobs maxItems maxSize).2 = blobs := by
  unfold decodeSliceOfDynamicBytes
  simp only [herr, Option.isSome_none, Bool.false_eq_true, if_false]
  split_ifs <;> simp_all

/-- Witness state for amended C6: single offset 4 in a container of length
7, a 3-byte tail region. -/
def decC6b : Dec := { input := [], length := 7, offsets := some [4] }

/-- C6 amended witness. -/
theorem shortCounter_amended_w :
    decC6b.err = none ∧ 0 < (retrieveSize decC6b).1 ∧ (retrieveSize decC6b).1 < 4 ∧
    ((decodeSliceOfDynamicBytes decC6b [[7]] 8 8).1.err =
        some .shortCounterOffset ∧
      (decodeSliceOfDynamicBytes decC6b [[7]] 8 8).2 = [[7]]) :=
  ⟨by decide, by decide, by decide,
    shortCounter_amended decC6b [[7]] 8 8 (by decide) (by decide) (by decide)⟩

/-! ### C7: cap enforcement on decode -/

theorem retrieveSize_err (dec : Dec) : (retrieveSize dec).2.err = dec.err := by
  unfold retrieveSize
  split <;> rfl

/-- C7: a variable byte region longer than its byte cap fails with the
max-length error, and a slice of static objects whose item count exceeds
its item cap fails with the max-items error. -/
theorem caps_enforced (dec : Dec) (blob : List Nat) (maxSize : Nat)
    (α : Type) (szr : Nat) (newU : α) (decSSZ : Dec → α → Dec × α)
    (objects : List (Option α)) (maxItems : Nat) (herr : dec.err = none) :
    (maxSize < (retrieveSize dec).1 →
      (decodeDynamicBytes dec blob maxSize).1.err = some .maxLengthExceeded) ∧
    ((retrieveSize dec).1 ≠ 0 → (retrieveSize dec).1 % szr = 0 →
      maxItems < (retrieveSize dec).1 / szr →
      (decodeSliceOfStaticObjects α szr newU decSSZ dec objects maxItems).1.err =
        some .maxItemsExceeded) := by
  constructor
  · intro hcap
    unfold decodeDynamicBytes
    simp only [herr, Option.isSome_none, Bool.false_eq_true, if_false]
    rw [if_pos hcap]
  · intro hsz hdvd hcap
    unfold decodeSliceOfStaticObjects
    simp only [herr, Option.isSome_none, Bool.false_eq_true, if_false]
    split_ifs <;> simp_all

/-- Witness state for C7: single offset 2 in a container of length 10, an
8-byte tail region. -/
def decC7 : Dec := { input := [], length := 10, offsets := some [2] }

/-- C7 witness: an 8-byte region against a byte cap of 5, and 4 two-byte
items against an item cap of 3. -/
theorem caps_enforced_w :
    decC7.err = none ∧
    (5 < (retrieveSize decC7).1 →
      (decodeDynamicBytes decC7 [] 5).1.err = some .maxLengthExceeded) ∧
    ((retrieveSize decC7).1 ≠ 0 → (retrieveSize decC7).1 % 2 = 0 →
      3 < (retrieveSize decC7).1 / 2 →
      (decodeSliceOfStaticObjects Nat 2 0 (fun d o => (d, o)) decC7 [] 3).1.err =
        some .maxItemsExceeded) :=
  ⟨by decide,
    caps_enforced decC7 [] 5 Nat 2 0 (fun d o => (d, o)) [] 3 (by decide)⟩

/-! ### C9: an empty tail region leaves the caller's slice untouched -/

/-- C9: when the derived tail region of a slice field is empty, each slice
decoder returns successfully with only the front offset popped, and the
caller's slice keeps its previous contents (no truncation to length
zero). -/
theorem emptyTail_frame (dec : Dec) (N maxItems maxSize szr : Nat)
    (bss blobs : List (List Nat)) (α : Type) (newU : α)
    (decSSZ : Dec → α → Dec × α) (objects : List (Option α))
    (herr : dec.err = none) (h0 : (retrieveSize dec).1 = 0) :
    decodeSliceOfStaticBytes N dec bss maxItems = ((retrieveSize dec).2, bss) ∧
    decodeSliceOfDynamicBytes dec blobs maxItems maxSize =
      ((retrieveSize dec).2, blobs) ∧
    decodeSliceOfStaticObjects α szr newU decSSZ dec objects maxItems =
      ((retrieveSize dec).2, objects) ∧
    (retrieveSize dec).2.err = none := by
  refine ⟨?_, ?_, ?_, ?_⟩
  · unfold decodeSliceOfStaticBytes
    simp [herr, h0]
  · unfold decodeSliceOfDynamicBytes
    simp [herr, h0]
  · unfold decodeSliceOfStaticObjects
    simp [herr, h0]
  · rw [retrieveSize_err]
    exact herr

/-- Witness state for C9: single offset 6 equal to the container length,
so the slice field's tail region is empty; the reused slices are
non-empty. -/
def decC9 : Dec := { input := [], length := 6, offsets := some [6] }

/-- C9 witness. -/
theorem emptyTail_frame_w :
    decC9.err = none ∧ (retrieveSize decC9).1 = 0 ∧
    (decodeSliceOfStaticBytes 3 decC9 [[1, 2, 3]] 5 =
        ((retrieveSize decC9).2, [[1, 2, 3]]) ∧
      decodeSliceOfDynamicBytes decC9 [[9]] 5 5 = ((retrieveSize decC9).2, [[9]]) ∧
      decodeSliceOfStaticObjects Nat 4 0 (fun d o => (d, o)) decC9 [some 8] 5 =
        ((retrieveSize decC9).2, [some 8]) ∧
      (retrieveSize decC9).2.err = none) :=
  ⟨by decide, by decide,
    emptyTail_frame decC9 3 5 5 4 [[1, 2, 3]] [[9]] Nat 0 (fun d o => (d, o))
      [some 8] (by decide) (by decide)⟩

/-! ### C8: the error latch makes every operation a no-op -/

/-- C8: with an error latched, every decode operation returns its decoder
state and its target completely unchanged — nothing is read from the
input, no offsets or queues move, and the latched error survives. -/
theorem errLatch_noop (dec : Dec) (e : DecErr)
    (n slot elemSize maxItems maxSize N szr : Nat)
    (bytes blob : List Nat) (bss blobs : List (List Nat)) (staticSSZ : Bool)
    (α : Type) (newU : α) (decSSZ : Dec → α → Dec × α)
    (objects : List (Option α)) (herr : dec.err = some e) :
    DecodeUint64 dec n = (dec, n) ∧
    DecodeStaticBytes dec bytes = (dec, bytes) ∧
    DecodeDynamicBytes dec slot maxSize = dec ∧
    DecodeSliceOfStaticBytes dec slot elemSize maxItems = dec ∧
    DecodeSliceOfDynamicBytes dec slot maxItems maxSize = dec ∧
    DecodeSliceOfStaticObjects dec slot staticSSZ szr maxItems = dec ∧
    decodeDynamicBytes dec blob maxSize = (dec, blob) ∧
    decodeSliceOfStaticBytes N dec bss maxItems = (dec, bss) ∧
    decodeSliceOfDynamicBytes dec blobs maxItems maxSize = (dec, blobs) ∧
    decodeSliceOfStaticObjects α szr newU decSSZ dec objects maxItems =
      (dec, objects) := by
  unfold DecodeUint64 DecodeStaticBytes DecodeDynamicBytes
    DecodeSliceOfStaticBytes DecodeSliceOfDynamicBytes
    DecodeSliceOfStaticObjects decodeDynamicBytes decodeSliceOfStaticBytes
    decodeSliceOfDynamicBytes decodeSliceOfStaticObjects
  simp [herr]

/-- Witness state for C8: a decoder with a latched short-read error and
non-trivial coordination state. -/
def decC8 : Dec :=
  { input := [1, 2, 3, 4, 5, 6, 7, 8], err := some .shortRead, length := 9,
    offset := 4, offsets := some [4, 6], pend := [.dynBytes 0 5] }

/-- C8 witness. -/
theorem errLatch_noop_w :
    decC8.err = some .shortRead ∧
    (DecodeUint64 decC8 3 = (decC8, 3) ∧
      DecodeStaticBytes decC8 [9, 9] = (decC8, [9, 9]) ∧
      DecodeDynamicBytes decC8 1 5 = decC8 ∧
      DecodeSliceOfStaticBytes decC8 1 2 7 = decC8 ∧
      DecodeSliceOfDynamicBytes decC8 1 7 5 = decC8 ∧
      DecodeSliceOfStaticObjects decC8 1 true 2 7 = decC8 ∧
      decodeDynamicBytes decC8 [9] 5 = (decC8, [9]) ∧
      decodeSliceOfStaticBytes 2 decC8 [[9, 9]] 7 = (decC8, [[9, 9]]) ∧
      decodeSliceOfDynamicBytes decC8 [[9]] 7 5 = (decC8, [[9]]) ∧
      decodeSliceOfStaticObjects Nat 2 0 (fun d o => (d, o)) decC8 [none] 7 =
        (decC8, [none])) :=
  ⟨by decide,
    errLatch_noop decC8 .shortRead 3 1 2 7 5 2 2 [9, 9] [9] [[9, 9]] [[9]] true
      Nat 0 (fun d o => (d, o)) [none] (by decide)⟩

/-! ### C5: slice-of-variable counter offset (code bug at counter 0) -/

/-- Decoder state about to run the tail action of a slice-of-variable
field: container length 8, the slice's recorded offset 4 (so the tail
region spans 4 bytes), and the region's bytes `00 00 00 00` — a counter
offset of 0, which is divisible by 4 and within the region. -/
def decC5 : Dec := { input := [0, 0, 0, 0], length := 8, offsets := some [4] }

/-- C5: per the claim (and the spec) a counter offset of 0 should decode
the slice as exactly 0/4 = 0 items; instead the code sizes the slice to
zero elements and still queues the first-item action over `&(*blobs)[0]`,
whose evaluation during the drain is a runtime index-out-of-range panic
(the model's `panicked` latch) rather than a successful empty decode or
any latched error. -/
theorem sliceDyn_counterZero_panics :
    (retrieveSize decC5).1 = 4 ∧
    leBytes decC5.input = 0 ∧
    (decodeSliceOfDynamicBytes decC5 [] 16 16).1.panicked = true ∧
    (decodeSliceOfDynamicBytes decC5 [] 16 16).1.err = none := by decide

end SszDec
